import Mathlib

/-!
Verification of the PDF.js filter/highlight extension.

The development shallowly embeds two source components:

* `FilterHighlightOverlay` (src/unnamed/part_001): converts a highlight's
  PDF-space rectangle into an on-screen overlay box and manages the
  overlay's lifecycle with `setTimeout`-based delays.  The geometry is
  embedded as pure functions over `ℚ`; the lifecycle as a small
  discrete-event machine (state + timer queue) with a deterministic,
  fuelled event loop `run`.

* `PDFFilterView.#navigateToHighlight` (src/web/pdf_filter_view.js):
  decides between dispatching the `filterhighlightselected` event (with a
  scroll destination) and falling back to plain page navigation.

JavaScript `null`/`undefined` values are embedded as `Option`; a thrown
exception in a timer callback is recorded by incrementing an `errors`
counter (the event loop keeps running, as a browser's does).
-/

namespace PdfFilter

/-- A PDF-space rectangle `{x, y, width, height}` as found in
`highlights.json` (`y` and `height` are typically negative). -/
structure RectLoc where
  x : ℚ
  y : ℚ
  width : ℚ
  height : ℚ
deriving DecidableEq, Repr

/-- An on-screen (viewport-space) box: the `left`/`top`/`width`/`height`
inline styles the overlay element receives. -/
structure ScreenBox where
  left : ℚ
  top : ℚ
  width : ℚ
  height : ℚ
deriving DecidableEq, Repr

/-- Lines 107–110 of `#createOverlayElement`: given the two transformed
corner points `topLeft` and `bottomRight`, the box position is the
component-wise `Math.min` and the size the component-wise absolute
difference. -/
def mkScreenBox (p q : ℚ × ℚ) : ScreenBox :=
  { left := min p.1 q.1
    top := min p.2 q.2
    width := |q.1 - p.1|
    height := |q.2 - p.2| }

/-- Lines 95–102 of `#createOverlayElement`: compute
`left = x`, `bottom = y`, `right = x + width`, `top = y + height`,
transform `(left, top)` and `(right, bottom)` by the page viewport's
`convertToViewportPoint`, and build the screen box from those two
points. -/
def createOverlayBox (tf : ℚ → ℚ → ℚ × ℚ) (loc : RectLoc) : ScreenBox :=
  let left := loc.x
  let bottom := loc.y
  let right := loc.x + loc.width
  let top := loc.y + loc.height
  mkScreenBox (tf left top) (tf right bottom)

/-! ## `PDFFilterView.#navigateToHighlight` (src/web/pdf_filter_view.js) -/

/-- The JavaScript value stored in `highlightData.location`: `null`, an
array of numbers, or some other (non-array) value. -/
inductive JsLocation
  | null
  | arr (entries : List ℚ)
  | nonArray
deriving DecidableEq, Repr

/-- The observable outcome of `#navigateToHighlight`:
either `scrollPageIntoView` with an `XYZ` destination followed by a
`filterhighlightselected` dispatch carrying `{x, y, width, height}`, or
the `linkService.goToPage` fallback (with no dispatch). -/
inductive NavAction
  | scrollAndDispatch (pageNumber : Int) (destX destY : ℚ) (zoom : Option ℚ)
      (loc : RectLoc)
  | goToPage (pageNumber : Int)
deriving DecidableEq, Repr

/-- Lines 86–131 of `pdf_filter_view.js`.  `hasPdfViewer` models the
truthiness of `linkService.pdfViewer`.  The guard is
`location && Array.isArray(location) && location.length === 4`; on
success the scroll destination is
`[null, {name: "XYZ"}, x + width/2, (top + bottom)/2, null]` with
`top = y + height`, `bottom = y`, and the event payload is
`{x, y, width, height}`. -/
def navigateToHighlight (hasPdfViewer : Bool) (page : Int)
    (location : JsLocation) : NavAction :=
  if !hasPdfViewer then
    .goToPage page
  else
    match location with
    | .arr [x, y, width, height] =>
        let top := y + height
        let bottom := y
        let centerX := x + width / 2
        let centerY := (top + bottom) / 2
        .scrollAndDispatch page centerX centerY none ⟨x, y, width, height⟩
    | _ => .goToPage page

/-! ## The overlay lifecycle (`FilterHighlightOverlay`)

The component's state is the private field `#currentOverlay` plus the DOM
(the overlay elements appended to page `div`s) and the pending
`setTimeout`/`requestAnimationFrame` callbacks.  We embed it as a record
with a timer queue and run it with a deterministic event loop: pending
callbacks fire in `(fireAt, seq)` order (`seq` is the scheduling order),
and a callback due at or before an external call's time fires before that
call. -/

/-- A page view handle: `pageView.div` truthiness and the viewport's
`convertToViewportPoint`. -/
structure PageView where
  hasDiv : Bool
  viewport : ℚ → ℚ → ℚ × ℚ

/-- The viewer's `_pages` field: `none` embeds an absent (`undefined`)
array.  (An empty array is truthy in JavaScript, so it passes the
`!pdfViewer._pages` guard and every index then reads `undefined`.) -/
structure PdfViewer where
  _pages : Option (List PageView)

/-- `PDFViewerApplication.pdfSidebar`. -/
structure PdfSidebar where
  pdfViewer : Option PdfViewer

/-- The global `window.PDFViewerApplication`. -/
structure PdfApplication where
  pdfViewer : Option PdfViewer
  pdfSidebar : Option PdfSidebar

/-- `window.PDFViewerApplication?.pdfViewer ||
window.PDFViewerApplication?.pdfSidebar?.pdfViewer` (lines 66–68). -/
def lookupPdfViewer (app : Option PdfApplication) : Option PdfViewer :=
  match app with
  | none => none
  | some a => a.pdfViewer <|> a.pdfSidebar.bind PdfSidebar.pdfViewer

/-- `#getPageView` (lines 65–75): resolve the 1-based page number to a
page view, or `none` when the viewer is absent, `_pages` is absent, or
the index is out of range (JavaScript indexing yields `undefined`). -/
def getPageView (app : Option PdfApplication) (pageNumber : Int) :
    Option PageView :=
  match lookupPdfViewer app with
  | none => none
  | some v =>
    match v._pages with
    | none => none
    | some ps =>
        if 1 ≤ pageNumber then ps.get? (pageNumber.toNat - 1) else none

/-- An overlay element in the DOM: its identity, computed box, and inline
`style.opacity` (`none` until a callback assigns it). -/
structure Overlay where
  id : Nat
  box : ScreenBox
  opacity : Option ℚ
deriving DecidableEq, Repr

/-- A pending callback: the settle `setTimeout` scheduled by
`showHighlight` (capturing its arguments), the fade `setTimeout`
scheduled by `clearHighlight` (capturing nothing — it reads
`#currentOverlay` at fire time), or the fade-in `requestAnimationFrame`
(capturing the created element). -/
inductive TCallback
  | settle (pageNumber : Int) (location : Option RectLoc)
  | fade
  | raf (oid : Nat)
deriving DecidableEq, Repr

/-- A queued callback with its due time and scheduling sequence number. -/
structure Timer where
  fireAt : Nat
  seq : Nat
  cb : TCallback
deriving DecidableEq, Repr

/-- The component plus DOM state.  `errors` counts uncaught exceptions
thrown inside callbacks. -/
structure EngineState where
  now : Nat
  overlays : List Overlay
  current : Option Nat
  timers : List Timer
  nextId : Nat
  nextSeq : Nat
  errors : Nat
deriving DecidableEq, Repr

/-- The empty initial state at time 0. -/
def initState : EngineState :=
  { now := 0, overlays := [], current := none, timers := [], nextId := 0
    nextSeq := 0, errors := 0 }

/-- The observable part of the state: the DOM overlays, the
`#currentOverlay` reference, and whether anything threw.  (`nextSeq` and
`now` are bookkeeping of the embedding.) -/
structure ObsState where
  overlays : List Overlay
  current : Option Nat
  errors : Nat
deriving DecidableEq, Repr

/-- Project the observable part. -/
def EngineState.obs (s : EngineState) : ObsState :=
  ⟨s.overlays, s.current, s.errors⟩

/-- The settle delay of `showHighlight` (line 57). -/
def SETTLE_DELAY_MS : Nat := 500

/-- The fade-out delay of `clearHighlight` (line 137). -/
def FADE_DELAY_MS : Nat := 300

/-- Assign `style.opacity` on the overlay element with identity `oid`. -/
def setOpacity (l : List Overlay) (oid : Nat) (v : ℚ) : List Overlay :=
  l.map fun o => if o.id = oid then { o with opacity := some v } else o

/-- `element.remove()`: detach the overlay with identity `oid`. -/
def removeOverlay (l : List Overlay) (oid : Nat) : List Overlay :=
  l.filter fun o => o.id ≠ oid

/-- `clearHighlight` (lines 130–139), synchronous part: if
`#currentOverlay` is set, assign it opacity 0 and schedule a fade
callback 300 ms out; otherwise do nothing.  The element is *not* removed
here and `#currentOverlay` is *not* cleared here. -/
def clearHighlight (s : EngineState) : EngineState :=
  match s.current with
  | none => s
  | some oid =>
      { s with
        overlays := setOpacity s.overlays oid 0
        timers := s.timers ++ [⟨s.now + FADE_DELAY_MS, s.nextSeq, .fade⟩]
        nextSeq := s.nextSeq + 1 }

/-- `showHighlight` (lines 42–58), synchronous part: clear any existing
highlight, then schedule the settle callback 500 ms out, capturing the
arguments. -/
def showHighlight (pageNumber : Int) (location : Option RectLoc)
    (s : EngineState) : EngineState :=
  let s1 := clearHighlight s
  { s1 with
    timers :=
      s1.timers ++ [⟨s1.now + SETTLE_DELAY_MS, s1.nextSeq,
        .settle pageNumber location⟩]
    nextSeq := s1.nextSeq + 1 }

/-- The outcome of `#createOverlayElement` (lines 83–125): `thrown` when
destructuring a `null`/`undefined` location raises a `TypeError`,
`noElement` when `pageView.div` is falsy (the function returns `null`),
or the computed box.  The `div` check precedes the destructuring. -/
inductive CreateResult
  | thrown
  | noElement
  | made (box : ScreenBox)
deriving DecidableEq, Repr

/-- `#createOverlayElement`'s decision and geometry. -/
def createOverlayElement (pv : PageView) (location : Option RectLoc) :
    CreateResult :=
  if pv.hasDiv then
    match location with
    | none => .thrown
    | some loc => .made (createOverlayBox pv.viewport loc)
  else .noElement

/-- The settle callback body (lines 47–57): resolve the page view (absent
→ return), create the overlay element (appending it to the page's div and
scheduling the fade-in frame), and if one was made store it in
`#currentOverlay`. -/
def fireSettle (app : Option PdfApplication) (pageNumber : Int)
    (location : Option RectLoc) (s : EngineState) : EngineState :=
  match getPageView app pageNumber with
  | none => s
  | some pv =>
    match createOverlayElement pv location with
    | .thrown => { s with errors := s.errors + 1 }
    | .noElement => s
    | .made box =>
        { s with
          overlays := s.overlays ++ [⟨s.nextId, box, none⟩]
          timers := s.timers ++ [⟨s.now, s.nextSeq, .raf s.nextId⟩]
          current := some s.nextId
          nextId := s.nextId + 1
          nextSeq := s.nextSeq + 1 }

/-- The fade callback body (lines 134–137): remove whatever
`#currentOverlay` refers to *at fire time* (optional chaining: no-op when
it is `null`) and null the reference. -/
def fireFade (s : EngineState) : EngineState :=
  match s.current with
  | none => { s with current := none }
  | some oid =>
      { s with overlays := removeOverlay s.overlays oid, current := none }

/-- The fade-in frame (lines 120–122): set the element's opacity to 1. -/
def fireRaf (oid : Nat) (s : EngineState) : EngineState :=
  { s with overlays := setOpacity s.overlays oid 1 }

/-- Dispatch a fired callback. -/
def fireTimer (app : Option PdfApplication) (cb : TCallback)
    (s : EngineState) : EngineState :=
  match cb with
  | .settle p loc => fireSettle app p loc s
  | .fade => fireFade s
  | .raf oid => fireRaf oid s

/-- An external stimulus: a `showHighlight` call (as delivered by the
`filterhighlightselected` listener) or a direct `clearHighlight` call. -/
inductive ExtEvent
  | show (pageNumber : Int) (location : Option RectLoc)
  | clear
deriving DecidableEq, Repr

/-- Apply an external call (its synchronous part). -/
def applyExt (e : ExtEvent) (s : EngineState) : EngineState :=
  match e with
  | .show p loc => showHighlight p loc s
  | .clear => clearHighlight s

/-- `t` is due no later than `u` (earlier time, or same time and
scheduled earlier). -/
def timerLE (t u : Timer) : Bool :=
  t.fireAt < u.fireAt || (t.fireAt == u.fireAt && t.seq ≤ u.seq)

/-- The next callback due, if any. -/
def findMinTimer : List Timer → Option Timer
  | [] => none
  | t :: ts =>
    match findMinTimer ts with
    | none => some t
    | some u => if timerLE t u then some t else some u

/-- Drop the queue entry with sequence number `seq`. -/
def removeTimer (seq : Nat) (ts : List Timer) : List Timer :=
  ts.filter fun t => t.seq ≠ seq

/-- Advance the clock (time never moves backwards). -/
def advanceTo (t : Nat) (s : EngineState) : EngineState :=
  { s with now := max s.now t }

/-- The fuelled event loop: external events (sorted by time) are merged
with the timer queue; a timer due at or before the next external event's
time fires first. -/
def run (app : Option PdfApplication) :
    Nat → List (Nat × ExtEvent) → EngineState → EngineState
  | 0, _, s => s
  | fuel + 1, evs, s =>
    match findMinTimer s.timers, evs with
    | none, [] => s
    | some t, [] =>
        run app fuel []
          (fireTimer app t.cb
            (advanceTo t.fireAt { s with timers := removeTimer t.seq s.timers }))
    | none, (te, e) :: rest =>
        run app fuel rest (applyExt e (advanceTo te s))
    | some t, (te, e) :: rest =>
        if t.fireAt ≤ te then
          run app fuel ((te, e) :: rest)
            (fireTimer app t.cb
              (advanceTo t.fireAt
                { s with timers := removeTimer t.seq s.timers }))
        else
          run app fuel rest (applyExt e (advanceTo te s))

/-- A concrete single-page application used in concrete runs: one page
view with a div, identity viewport transform. -/
def demoApp : Option PdfApplication :=
  some
    { pdfViewer := some { _pages := some [{ hasDiv := true, viewport := fun a b => (a, b) }] }
      pdfSidebar := none }

/-- A concrete well-formed highlight rectangle. -/
def demoRect : RectLoc := ⟨10, -50, 20, -30⟩

/-- Two `showHighlight` calls for page 1, the second `d` ms after the
first. -/
def twoShows (d : Nat) : List (Nat × ExtEvent) :=
  [(0, .show 1 (some demoRect)), (d, .show 1 (some demoRect))]

/-- The state reached by a single `showHighlight` call for page 1 of
`demoApp`, once all its callbacks have fired. -/
def sAfterFirstShow : EngineState :=
  run demoApp 8 [(0, .show 1 (some demoRect))] initState

/-- The box `demoRect` projects to under the identity transform. -/
def demoBox : ScreenBox := ⟨10, -80, 20, 30⟩

/-- A quiescent state with a single displayed overlay (the literal form
of `sAfterFirstShow`): one overlay in the DOM, `#currentOverlay` set to
it, no pending callbacks. -/
def sDemo : EngineState :=
  { now := 500, overlays := [⟨0, demoBox, some 1⟩], current := some 0
    timers := [], nextId := 1, nextSeq := 2, errors := 0 }

end PdfFilter

namespace PdfFilter

/-! ## Claims about the overlay geometry -/

/-- C1: with the identity point-to-viewport transform, the rectangle
`{x: 10, y: -50, width: 20, height: -30}` projects to the overlay box at
position `(10, -80)` with size `(20, 30)`: the corners `(left, top) =
(10, -80)` and `(right, bottom) = (30, -50)` are transformed and used as
the box corners. -/
theorem overlay_identity_example :
    createOverlayBox (fun a b => (a, b)) ⟨10, -50, 20, -30⟩ =
      ⟨10, -80, 20, 30⟩ ∧
    (fun a b => ((a : ℚ), (b : ℚ))) 10 (-50 + -30) = (10, -80) ∧
    (fun a b => ((a : ℚ), (b : ℚ))) (10 + 20) (-50) = (30, -50) := by
  refine ⟨?_, by norm_num, by norm_num⟩
  simp only [createOverlayBox, mkScreenBox]
  norm_num

/-- C2: for every rectangle and every point-to-viewport transform, the
overlay's position is the component-wise minimum of the two transformed
corner points and its size the absolute component-wise difference, hence
width and height are non-negative; and swapping the two transformed
corner points yields the same on-screen box. -/
theorem overlay_min_abs_nonneg_swap (tf : ℚ → ℚ → ℚ × ℚ) (loc : RectLoc) :
    createOverlayBox tf loc =
      mkScreenBox (tf loc.x (loc.y + loc.height))
        (tf (loc.x + loc.width) loc.y) ∧
    (createOverlayBox tf loc).left =
      min (tf loc.x (loc.y + loc.height)).1 ((tf (loc.x + loc.width) loc.y)).1 ∧
    (createOverlayBox tf loc).top =
      min (tf loc.x (loc.y + loc.height)).2 ((tf (loc.x + loc.width) loc.y)).2 ∧
    (createOverlayBox tf loc).width =
      |((tf (loc.x + loc.width) loc.y)).1 - (tf loc.x (loc.y + loc.height)).1| ∧
    (createOverlayBox tf loc).height =
      |((tf (loc.x + loc.width) loc.y)).2 - (tf loc.x (loc.y + loc.height)).2| ∧
    0 ≤ (createOverlayBox tf loc).width ∧
    0 ≤ (createOverlayBox tf loc).height ∧
    ∀ p q : ℚ × ℚ, mkScreenBox p q = mkScreenBox q p := by
  refine ⟨rfl, rfl, rfl, rfl, rfl, abs_nonneg _, abs_nonneg _, ?_⟩
  intro p q
  simp only [mkScreenBox, min_comm, abs_sub_comm]

/-! ## Claims about `#navigateToHighlight` -/

/-- C9: the `filterhighlightselected` event is dispatched exactly when the
link service exposes a `pdfViewer` and the location is a non-null array of
exactly four entries; in every other case the call falls back to
`linkService.goToPage(page)` with no dispatch, and the dispatched payload
always has the four-field `{x, y, width, height}` shape. -/
theorem navigate_dispatch_iff (hasPdfViewer : Bool) (page : Int)
    (location : JsLocation) :
    ((∃ cx cy z r, navigateToHighlight hasPdfViewer page location =
        .scrollAndDispatch page cx cy z r) ↔
      (hasPdfViewer = true ∧
        ∃ x y w h, location = .arr [x, y, w, h])) ∧
    (navigateToHighlight hasPdfViewer page location = .goToPage page ∨
      ∃ x y w h, location = .arr [x, y, w, h] ∧ hasPdfViewer = true ∧
        navigateToHighlight hasPdfViewer page location =
          .scrollAndDispatch page (x + w / 2) ((y + h + y) / 2) none
            ⟨x, y, w, h⟩) := by
  cases hasPdfViewer with
  | false => simp [navigateToHighlight]
  | true =>
    match location with
    | .null => simp [navigateToHighlight]
    | .nonArray => simp [navigateToHighlight]
    | .arr [] => simp [navigateToHighlight]
    | .arr [a] => simp [navigateToHighlight]
    | .arr [a, b] => simp [navigateToHighlight]
    | .arr [a, b, c] => simp [navigateToHighlight]
    | .arr [a, b, c, d] =>
        constructor
        · constructor
          · intro _
            exact ⟨rfl, a, b, c, d, rfl⟩
          · intro _
            exact ⟨a + c / 2, (b + d + b) / 2, none, ⟨a, b, c, d⟩, rfl⟩
        · exact Or.inr ⟨a, b, c, d, rfl, rfl, rfl⟩
    | .arr (a :: b :: c :: d :: e :: rest) => simp [navigateToHighlight]

/-- C10: with a valid four-entry location `[x, y, width, height]`, the
scroll destination is the geometric center of the highlight rectangle —
horizontal `x + width/2`, vertical `y + height/2` (the average of the
bottom `y` and the top `y + height`) — with a `null` zoom entry. -/
theorem navigate_scroll_center (page : Int) (x y w h : ℚ) :
    navigateToHighlight true page (.arr [x, y, w, h]) =
      .scrollAndDispatch page (x + w / 2) (y + h / 2) none ⟨x, y, w, h⟩ := by
  simp only [navigateToHighlight, Bool.not_true]
  norm_num
  ring

/-! ## Helper lemmas for the lifecycle theorems -/

/-- Removing an overlay ignores an earlier opacity write to it. -/
theorem removeOverlay_setOpacity (l : List Overlay) (oid : Nat) (v : ℚ) :
    removeOverlay (setOpacity l oid v) oid = removeOverlay l oid := by
  induction l with
  | nil => rfl
  | cons o t ih =>
      simp only [setOpacity, removeOverlay, List.map_cons, List.filter_cons]
        at ih ⊢
      by_cases h : o.id = oid
      · simpa [h] using ih
      · simpa [h] using ih

/-- Removing the only overlay empties the DOM. -/
theorem removeOverlay_single (o : Overlay) (oid : Nat) (h : o.id = oid) :
    removeOverlay [o] oid = [] := by simp [removeOverlay, h]

/-- Arithmetic helper for the clock updates of `advanceTo`. -/
theorem max_add_right (n k : Nat) : max n (n + k) = n + k := by omega

/-- With no current overlay, `clearHighlight` is the identity. -/
theorem clearHighlight_of_none (s : EngineState) (h : s.current = none) :
    clearHighlight s = s := by
  unfold clearHighlight
  rw [h]

/-! ## Claims about the overlay lifecycle -/

/-- C3 (counterexample): two `showHighlight` calls 100 ms apart — the
second within the first call's in-flight settle delay — leave TWO overlay
elements in the DOM after both settle delays have elapsed: the first
settle callback's overlay is orphaned because the second call's
`clearHighlight` ran while `#currentOverlay` was still null. -/
theorem showHighlight_race_two_overlays :
    (run demoApp 12 (twoShows 100) initState).overlays.length = 2 := by rfl

/-- C3 (amended): from a quiescent state with a single displayed overlay
— the state a first `showHighlight` call has produced once its settle
delay has elapsed — any further `showHighlight` call leaves at most one
overlay after its delays: the guarantee holds only when the second call
arrives after the first call's settle timer has fired. -/
theorem showHighlight_spaced_at_most_one (app : Option PdfApplication)
    (p : Int) (loc : Option RectLoc) (s : EngineState) (oid : Nat)
    (o : Overlay) (ht : s.timers = []) (hc : s.current = some oid)
    (ho : s.overlays = [o]) (hid : o.id = oid) :
    (run app 6 [] (showHighlight p loc s)).overlays.length ≤ 1 := by
  cases hgp : getPageView app p with
  | none =>
      simp [run, showHighlight, clearHighlight, hc, ht, ho, findMinTimer,
        timerLE, removeTimer, advanceTo, fireTimer, fireFade, fireSettle, hgp,
        removeOverlay_setOpacity, removeOverlay_single o oid hid,
        max_add_right, Nat.add_lt_add_iff_left, SETTLE_DELAY_MS, FADE_DELAY_MS]
  | some pv =>
      cases hce : createOverlayElement pv loc with
      | thrown =>
          simp [run, showHighlight, clearHighlight, hc, ht, ho, findMinTimer,
            timerLE, removeTimer, advanceTo, fireTimer, fireFade, fireSettle,
            hgp, hce, removeOverlay_setOpacity, removeOverlay_single o oid hid,
            max_add_right, Nat.add_lt_add_iff_left, SETTLE_DELAY_MS,
            FADE_DELAY_MS]
      | noElement =>
          simp [run, showHighlight, clearHighlight, hc, ht, ho, findMinTimer,
            timerLE, removeTimer, advanceTo, fireTimer, fireFade, fireSettle,
            hgp, hce, removeOverlay_setOpacity, removeOverlay_single o oid hid,
            max_add_right, Nat.add_lt_add_iff_left, SETTLE_DELAY_MS,
            FADE_DELAY_MS]
      | made box =>
          simp [run, showHighlight, clearHighlight, hc, ht, ho, findMinTimer,
            timerLE, removeTimer, advanceTo, fireTimer, fireFade, fireSettle,
            fireRaf, setOpacity, hgp, hce, hid, removeOverlay_setOpacity,
            removeOverlay_single, max_add_right, Nat.add_lt_add_iff_left,
            SETTLE_DELAY_MS, FADE_DELAY_MS]

/-- C3 (witness): a `showHighlight` call from the quiescent single-overlay
state leaves at most one overlay. -/
theorem showHighlight_spaced_at_most_one_witness :
    (run demoApp 6 [] (showHighlight 1 (some demoRect) sDemo)).overlays.length
      ≤ 1 :=
  showHighlight_spaced_at_most_one demoApp 1 (some demoRect) sDemo 0
    ⟨0, demoBox, some 1⟩ rfl rfl rfl rfl

/-- C4 (counterexample): a `showHighlight` call for an unresolvable page
(page 2 of a one-page viewer) made while an overlay is displayed is not a
no-op: its unconditional `clearHighlight` removes the displayed overlay
(one overlay before the call, none after). -/
theorem showHighlight_unresolved_cex :
    getPageView demoApp 2 = none ∧
    sAfterFirstShow.overlays.length = 1 ∧
    (run demoApp 4 []
      (showHighlight 2 (some demoRect) sAfterFirstShow)).overlays.length = 0 :=
  ⟨rfl, rfl, rfl⟩

/-- C4 (amended): a `showHighlight` call whose page number resolves to no
page view, made while no overlay is displayed and no callback is pending,
is a silent no-op: the observable state (DOM overlays, current reference,
error count — in particular, nothing thrown) is unchanged after the
settle delay. -/
theorem showHighlight_unresolved_silent (app : Option PdfApplication)
    (p : Int) (loc : Option RectLoc) (s : EngineState)
    (hp : getPageView app p = none) (ht : s.timers = [])
    (hc : s.current = none) :
    (run app 2 [] (showHighlight p loc s)).obs = s.obs := by
  simp only [showHighlight, clearHighlight_of_none s hc, ht]
  simp [run, findMinTimer, removeTimer, advanceTo, fireTimer, fireSettle, hp,
    EngineState.obs]

/-- C4 (witness): from the initial state, `showHighlight` for page 2 of
the one-page `demoApp` changes nothing observable. -/
theorem showHighlight_unresolved_silent_witness :
    (run demoApp 2 [] (showHighlight 2 (some demoRect) initState)).obs =
      initState.obs :=
  showHighlight_unresolved_silent demoApp 2 (some demoRect) initState rfl rfl
    rfl

/-- C5 (counterexample): a `showHighlight` call with a `null` location on
a resolvable page does not degrade silently: the settle callback throws a
`TypeError` destructuring the location (the error counter becomes 1). -/
theorem showHighlight_null_location_cex :
    (run demoApp 6 [(0, .show 1 none)] initState).errors = 1 := by rfl

/-- C5 (amended): a `showHighlight` call with a `null` location creates
no overlay, but when the page view resolves and has a container div the
settle callback throws (destructuring `null` raises a `TypeError`)
instead of degrading silently; malformed locations are filtered out
upstream by `PDFFilterView` and never reach this component. -/
theorem showHighlight_null_location_throws (app : Option PdfApplication)
    (p : Int) (pv : PageView) (s : EngineState)
    (hp : getPageView app p = some pv) (hd : pv.hasDiv = true)
    (ht : s.timers = []) (hc : s.current = none) :
    (run app 2 [] (showHighlight p none s)).errors = s.errors + 1 ∧
    (run app 2 [] (showHighlight p none s)).overlays = s.overlays := by
  constructor <;>
    simp [run, showHighlight, clearHighlight_of_none s hc, ht, findMinTimer,
      removeTimer, advanceTo, fireTimer, fireSettle, hp, createOverlayElement,
      hd]

/-- C5 (witness): showing a `null` location on page 1 of `demoApp` from
the initial state throws once and creates no overlay. -/
theorem showHighlight_null_location_throws_witness :
    (run demoApp 2 [] (showHighlight 1 none initState)).errors =
      initState.errors + 1 ∧
    (run demoApp 2 [] (showHighlight 1 none initState)).overlays =
      initState.overlays :=
  showHighlight_null_location_throws demoApp 1 ⟨true, fun a b => (a, b)⟩
    initState rfl rfl rfl rfl

/-- C6: `clearHighlight` is idempotent from a quiescent state: calling it
twice leaves the same observable state as calling it once (after the fade
delays elapse); with no current overlay it is exactly the identity (no
state change, no DOM mutation, no throw); with a current overlay it
schedules only the fade callback and the overlay is removed once that
callback fires. -/
theorem clearHighlight_idempotent (app : Option PdfApplication)
    (s : EngineState) (ht : s.timers = []) :
    (run app 3 [] (clearHighlight (clearHighlight s))).obs =
      (run app 3 [] (clearHighlight s)).obs ∧
    (s.current = none → clearHighlight s = s) ∧
    ∀ oid, s.current = some oid →
      (clearHighlight s).timers =
        [⟨s.now + FADE_DELAY_MS, s.nextSeq, .fade⟩] ∧
      (run app 3 [] (clearHighlight s)).overlays =
        removeOverlay s.overlays oid := by
  refine ⟨?_, clearHighlight_of_none s, ?_⟩
  · cases hc : s.current with
    | none =>
        rw [clearHighlight_of_none s hc, clearHighlight_of_none s hc]
    | some oid =>
        simp only [clearHighlight, hc, ht]
        simp [run, findMinTimer, timerLE, removeTimer, advanceTo, fireTimer,
          fireFade, EngineState.obs, removeOverlay_setOpacity, max_add_right,
          Nat.add_lt_add_iff_left]
  · intro oid hc
    constructor
    · simp [clearHighlight, hc, ht]
    · simp [run, clearHighlight, hc, ht, findMinTimer, removeTimer, advanceTo,
        fireTimer, fireFade, removeOverlay_setOpacity, max_add_right]

/-- C6 (witness): idempotence at the concrete state left by a first
`showHighlight` call. -/
theorem clearHighlight_idempotent_witness :
    (run demoApp 3 []
      (clearHighlight (clearHighlight sAfterFirstShow))).obs =
      (run demoApp 3 [] (clearHighlight sAfterFirstShow)).obs ∧
    (sAfterFirstShow.current = none →
      clearHighlight sAfterFirstShow = sAfterFirstShow) ∧
    ∀ oid, sAfterFirstShow.current = some oid →
      (clearHighlight sAfterFirstShow).timers =
        [⟨sAfterFirstShow.now + FADE_DELAY_MS, sAfterFirstShow.nextSeq,
          .fade⟩] ∧
      (run demoApp 3 [] (clearHighlight sAfterFirstShow)).overlays =
        removeOverlay sAfterFirstShow.overlays oid :=
  clearHighlight_idempotent demoApp sAfterFirstShow rfl

/-- C7: `clearHighlight` on a displayed overlay first sets its opacity to
0 while leaving it in the DOM, schedules the removal for a strictly later
time (`now + 300`), and only once the fade callback fires is the element
gone — removal is never synchronous with the start of the fade. -/
theorem clearHighlight_fade_then_remove (app : Option PdfApplication)
    (s : EngineState) (oid : Nat) (o : Overlay) (ht : s.timers = [])
    (hc : s.current = some oid) (ho : o ∈ s.overlays) (hid : o.id = oid) :
    (clearHighlight s).overlays = setOpacity s.overlays oid 0 ∧
    { o with opacity := some 0 } ∈ (clearHighlight s).overlays ∧
    (clearHighlight s).timers =
      [⟨s.now + FADE_DELAY_MS, s.nextSeq, .fade⟩] ∧
    s.now < s.now + FADE_DELAY_MS ∧
    ∀ o2 ∈ (run app 2 [] (clearHighlight s)).overlays, o2.id ≠ oid := by
  refine ⟨?_, ?_, ?_, ?_, ?_⟩
  · simp [clearHighlight, hc]
  · simp only [clearHighlight, hc, setOpacity]
    exact List.mem_map.mpr ⟨o, ho, by simp [hid]⟩
  · simp [clearHighlight, hc, ht]
  · simp [FADE_DELAY_MS]
  · simp [run, clearHighlight, hc, ht, findMinTimer, removeTimer, advanceTo,
      fireTimer, fireFade, removeOverlay, List.mem_filter, max_add_right]

/-- C7 (witness): fade-then-remove at the quiescent single-overlay
state. -/
theorem clearHighlight_fade_then_remove_witness :
    (clearHighlight sDemo).overlays = setOpacity sDemo.overlays 0 0 ∧
    { id := 0, box := demoBox, opacity := some 0 } ∈
      (clearHighlight sDemo).overlays ∧
    (clearHighlight sDemo).timers =
      [⟨sDemo.now + FADE_DELAY_MS, sDemo.nextSeq, .fade⟩] ∧
    sDemo.now < sDemo.now + FADE_DELAY_MS ∧
    ∀ o2 ∈ (run demoApp 2 [] (clearHighlight sDemo)).overlays, o2.id ≠ 0 :=
  clearHighlight_fade_then_remove demoApp sDemo 0 ⟨0, demoBox, some 1⟩ rfl rfl
    (List.Mem.head _) rfl

/-- C8: the component's two delays are the fixed constants 500 ms
(settle, `showHighlight`) and 300 ms (fade, `clearHighlight`), and
neither operation cancels pending callbacks: `showHighlight` appends
exactly one settle callback due at `now + 500` on top of what its
`clearHighlight` left, and `clearHighlight` appends exactly one fade
callback due at `now + 300` when an overlay is current and nothing
otherwise. -/
theorem showHighlight_clearHighlight_delays (s : EngineState) (p : Int)
    (loc : Option RectLoc) :
    SETTLE_DELAY_MS = 500 ∧ FADE_DELAY_MS = 300 ∧
    (showHighlight p loc s).timers = (clearHighlight s).timers ++
      [⟨s.now + SETTLE_DELAY_MS, (clearHighlight s).nextSeq,
        .settle p loc⟩] ∧
    (clearHighlight s).timers = s.timers ++
      (match s.current with
       | none => []
       | some _ => [⟨s.now + FADE_DELAY_MS, s.nextSeq, .fade⟩]) := by
  refine ⟨rfl, rfl, ?_, ?_⟩ <;>
    cases hc : s.current <;> simp [showHighlight, clearHighlight, hc]

end PdfFilter
